import Mathlib

/-!
Verification of the VPC flow-log processor (`src/main.py`).

Strings are modelled as `List Char` (`Str`).  Python dictionaries are
modelled as association lists with Python assignment semantics
(`dset` replaces the value of the first matching key, else appends) and
`dict.get` semantics (`dget` returns the first match).  Python string
operations `strip`, `lower`, `split` (whitespace split dropping empty
tokens) are modelled by `pyStrip`, `pyLower`, `pySplit`.  Errors that
Python raises (IndexError from out-of-range indexing, TypeError from
unpacking `None`) are modelled with `Except PyError`.
-/

abbrev Str := List Char

def isWs (c : Char) : Bool := c.isWhitespace

/-- Python `str.strip()`: drop leading and trailing whitespace. -/
def pyStrip (s : Str) : Str := ((s.dropWhile isWs).reverse.dropWhile isWs).reverse

/-- Python `str.lower()` (ASCII letters, as used by the program). -/
def pyLower (s : Str) : Str := s.map Char.toLower

/-- Worker for `pySplit`; `acc` holds the current token reversed. -/
def pySplitAux : Str → Str → List Str
  | acc, [] => if acc = [] then [] else [acc.reverse]
  | acc, c :: cs =>
    if isWs c then
      if acc = [] then pySplitAux [] cs else acc.reverse :: pySplitAux [] cs
    else pySplitAux (c :: acc) cs

/-- Python `str.split()` with no argument: maximal runs of non-whitespace. -/
def pySplit (s : Str) : List Str := pySplitAux [] s

/-- Python `dict.get(k)`: the value stored for `k`, if any. -/
def dget {κ α : Type} [BEq κ] : List (κ × α) → κ → Option α
  | [], _ => none
  | p :: rest, k => if p.1 == k then some p.2 else dget rest k

/-- Python `d[k] = v`: replace the value at `k`, or append a new binding. -/
def dset {κ α : Type} [BEq κ] : List (κ × α) → κ → α → List (κ × α)
  | [], k, v => [(k, v)]
  | p :: rest, k, v => if p.1 == k then (k, v) :: rest else p :: dset rest k v

/-- Python `d[k] = d.get(k, 0) + 1`. -/
def dincr {κ : Type} [BEq κ] (d : List (κ × Nat)) (k : κ) : List (κ × Nat) :=
  dset d k ((dget d k).getD 0 + 1)

/-- Python `sum(d.values())`. -/
def sumValues {κ : Type} (d : List (κ × Nat)) : Nat := (d.map (fun p => p.2)).sum

/-- One row of `lookup_table.csv` as seen by `csv.DictReader`. -/
structure LookupRow where
  dstport : Str
  protocol : Str
  tag : Str

/-- Model of `load_lookup_table` (main.py lines 3-22): key `"dstport:protocol"` with
    the port stripped and the protocol stripped and lowercased; the value is
    the tag stripped and lowercased. -/
def load_lookup_table (rows : List LookupRow) : List (Str × Str) :=
  rows.foldl
    (fun lookup row =>
      dset lookup (pyStrip row.dstport ++ ':' :: pyLower (pyStrip row.protocol))
        (pyLower (pyStrip row.tag)))
    []

/-- The composite key built by `get_tag_from_lookup` (main.py line 37). -/
def tagKey (dstport protocol : Str) : Str := dstport ++ ':' :: pyLower protocol

/-- Model of `get_tag_from_lookup` (main.py lines 24-38):
    `lookup_table.get(key) or "Untagged"`. -/
def get_tag_from_lookup (lookup_table : List (Str × Str)) (dstport protocol : Str) : Str :=
  match dget lookup_table (tagKey dstport protocol) with
  | some t => if t = [] then "Untagged".toList else t
  | none => "Untagged".toList

/-- One row of `protocol_numbers.csv` as seen by `csv.DictReader`. -/
structure ProtocolRow where
  decimal : Str
  keyword : Str

/-- Model of `load_protocols_from_csv` (main.py lines 40-62). -/
def load_protocols_from_csv (rows : List ProtocolRow) : List (Str × Str) :=
  rows.foldl (fun protocols row => dset protocols row.decimal row.keyword) []

/-- Model of `get_protcol_from_protocol_number` (main.py lines 64-75):
    `protocols.get(protocol_number, "Unassigned")`. -/
def get_protcol_from_protocol_number (protocol_number : Str)
    (protocols : List (Str × Str)) : Str :=
  (dget protocols protocol_number).getD "Unassigned".toList

/-- A raw record handed to `process_row`: a CSV row (already a list) or a
    text line (split on whitespace inside the extractor). -/
inductive Row where
  | csv (fields : List Str)
  | text (line : Str)

/-- The field list the extractor works on (main.py lines 88-90). -/
def rowFields : Row → List Str
  | .csv fields => fields
  | .text line => pySplit line

/-- Errors Python raises on the modelled paths. -/
inductive PyError where
  | indexError
  | typeError
deriving DecidableEq

/-- Model of `extract_dstport_protocol` (main.py lines 78-95): index fields 5 and 7
    (IndexError if out of range), strip both, return `None` if either is
    empty. -/
def extract_dstport_protocol (row : Row) : Except PyError (Option (Str × Str)) :=
  let fields := rowFields row
  match fields[5]? with
  | none => .error .indexError
  | some f5 =>
    match fields[7]? with
    | none => .error .indexError
    | some f7 =>
      let dstport := pyStrip f5
      let protocol := pyStrip f7
      if dstport = [] ∨ protocol = [] then .ok none else .ok (some (dstport, protocol))

/-- The two aggregation dictionaries. -/
structure Counts where
  tag_counts : List (Str × Nat)
  port_protocol_counts : List ((Str × Str) × Nat)
deriving DecidableEq

/-- Model of `process_row` (main.py lines 130-137).  The statement
    `dstport, protocol_number = extract_dstport_protocol(row)` raises
    TypeError when the extractor returns `None`. -/
def process_row (protocols lookup_table : List (Str × Str)) (row : Row)
    (c : Counts) : Except PyError Counts :=
  match extract_dstport_protocol row with
  | .error e => .error e
  | .ok none => .error .typeError
  | .ok (some (dstport, protocol_number)) =>
    if dstport ≠ [] ∧ protocol_number ≠ [] then
      let protocol_name := get_protcol_from_protocol_number protocol_number protocols
      let tag := get_tag_from_lookup lookup_table dstport protocol_name
      .ok ⟨dincr c.tag_counts tag,
           dincr c.port_protocol_counts (dstport, pyLower protocol_name)⟩
    else .ok c

/-- The `.csv` branch of `process_flow_log_file` (main.py lines 113-119). -/
def process_flow_log_csv (protocols lookup_table : List (Str × Str)) :
    List (List Str) → Counts → Except PyError Counts
  | [], c => .ok c
  | row :: rest, c =>
    if row.length = 14 then
      match process_row protocols lookup_table (.csv row) c with
      | .error e => .error e
      | .ok c2 => process_flow_log_csv protocols lookup_table rest c2
    else process_flow_log_csv protocols lookup_table rest c

/-- The text branch of `process_flow_log_file` (main.py lines 120-126):
    each line is stripped, blank or non-14-token lines are skipped. -/
def process_flow_log_text (protocols lookup_table : List (Str × Str)) :
    List Str → Counts → Except PyError Counts
  | [], c => .ok c
  | line :: rest, c =>
    let row := pyStrip line
    if row = [] ∨ (pySplit row).length ≠ 14 then
      process_flow_log_text protocols lookup_table rest c
    else
      match process_row protocols lookup_table (.text row) c with
      | .error e => .error e
      | .ok c2 => process_flow_log_text protocols lookup_table rest c2

/-- A flow-log input: a `.csv` file (rows from `csv.reader`) or any other
    text file (its lines). -/
inductive FlowInput where
  | csvFile (rows : List (List Str))
  | textFile (lines : List Str)

/-- Model of `process_flow_log_file` (main.py lines 97-128). -/
def process_flow_log_file (protocols lookup_table : List (Str × Str))
    (input : FlowInput) : Except PyError Counts :=
  match input with
  | .csvFile rows => process_flow_log_csv protocols lookup_table rows ⟨[], []⟩
  | .textFile lines => process_flow_log_text protocols lookup_table lines ⟨[], []⟩

/-- A CSV row is valid when it has 14 fields and fields 5 and 7 are
    non-empty after trimming. -/
def validCsvRow (row : List Str) : Bool :=
  row.length == 14 &&
    (match row[5]?, row[7]? with
     | some f5, some f7 => decide (pyStrip f5 ≠ []) && decide (pyStrip f7 ≠ [])
     | _, _ => false)

/-- A text line is valid when, after stripping, it is non-blank and splits
    into exactly 14 whitespace-delimited tokens. -/
def validTextLine (line : Str) : Bool :=
  pyStrip line ≠ [] && (pySplit (pyStrip line)).length == 14

/-- The number of valid records in a flow-log input. -/
def countValid : FlowInput → Nat
  | .csvFile rows => (rows.filter validCsvRow).length
  | .textFile lines => (lines.filter validTextLine).length

deriving instance DecidableEq for Except

theorem sumValues_dincr {κ : Type} [BEq κ] (d : List (κ × Nat)) (k : κ) :
    sumValues (dincr d k) = sumValues d + 1 := by
  induction d with
  | nil => simp [dincr, dset, dget, sumValues]
  | cons p rest ih =>
    simp only [dincr, sumValues, List.map_cons, List.sum_cons] at ih ⊢
    by_cases h : (p.1 == k) = true
    · simp [dset, dget, h]
      omega
    · simp only [dset, dget, h, if_false, Bool.false_eq_true, List.map_cons, List.sum_cons]
      omega

theorem dropWhile_eq_self_of_all (p : Char → Bool) (l : Str)
    (h : ∀ c ∈ l, p c = false) : l.dropWhile p = l := by
  cases l with
  | nil => rfl
  | cons a t =>
    rw [List.dropWhile_cons]
    simp [h a (List.mem_cons_self a t)]

theorem pyStrip_eq_self_of_noWs (l : Str) (h : ∀ c ∈ l, isWs c = false) :
    pyStrip l = l := by
  unfold pyStrip
  rw [dropWhile_eq_self_of_all isWs l h,
      dropWhile_eq_self_of_all isWs l.reverse (fun c hc => h c (List.mem_reverse.mp hc)),
      List.reverse_reverse]

theorem pySplitAux_tokens (cs : Str) : ∀ acc, (∀ c ∈ acc, isWs c = false) →
    ∀ t ∈ pySplitAux acc cs, t ≠ [] ∧ ∀ c ∈ t, isWs c = false := by
  induction cs with
  | nil =>
    intro acc hacc t ht
    by_cases h : acc = []
    · simp [pySplitAux, h] at ht
    · simp [pySplitAux, h] at ht
      subst ht
      refine ⟨by simpa using h, fun c hc => hacc c (List.mem_reverse.mp hc)⟩
  | cons c cs ih =>
    intro acc hacc t ht
    by_cases hw : isWs c = true
    · by_cases h : acc = []
      · rw [show pySplitAux acc (c :: cs) = pySplitAux [] cs by simp [pySplitAux, hw, h]] at ht
        exact ih [] (by simp) t ht
      · rw [show pySplitAux acc (c :: cs) = acc.reverse :: pySplitAux [] cs by
          simp [pySplitAux, hw, h]] at ht
        rcases List.mem_cons.mp ht with rfl | ht
        · refine ⟨by simpa using h, fun d hd => hacc d (List.mem_reverse.mp hd)⟩
        · exact ih [] (by simp) t ht
    · rw [show pySplitAux acc (c :: cs) = pySplitAux (c :: acc) cs by
        simp [pySplitAux, hw]] at ht
      refine ih (c :: acc) ?_ t ht
      intro d hd
      rcases List.mem_cons.mp hd with rfl | hd
      · simpa using hw
      · exact hacc d hd

theorem pySplit_tokens (s : Str) : ∀ t ∈ pySplit s, t ≠ [] ∧ ∀ c ∈ t, isWs c = false :=
  pySplitAux_tokens s [] (by simp)

theorem extract_text_ok (row : Str) (h : (pySplit row).length = 14) :
    ∃ dp pn, extract_dstport_protocol (.text row) = .ok (some (dp, pn)) ∧
      dp ≠ [] ∧ pn ≠ [] := by
  have h5 : 5 < (pySplit row).length := by omega
  have h7 : 7 < (pySplit row).length := by omega
  have t5 := pySplit_tokens row ((pySplit row)[5]) (List.getElem_mem h5)
  have t7 := pySplit_tokens row ((pySplit row)[7]) (List.getElem_mem h7)
  have s5 : pyStrip ((pySplit row)[5]) = (pySplit row)[5] :=
    pyStrip_eq_self_of_noWs _ t5.2
  have s7 : pyStrip ((pySplit row)[7]) = (pySplit row)[7] :=
    pyStrip_eq_self_of_noWs _ t7.2
  refine ⟨(pySplit row)[5], (pySplit row)[7], ?_, t5.1, t7.1⟩
  unfold extract_dstport_protocol
  simp only [rowFields, List.getElem?_eq_getElem h5, List.getElem?_eq_getElem h7]
  rw [s5, s7, if_neg]
  simp [t5.1, t7.1]

theorem process_row_csv_valid (P L : List (Str × Str)) (row : List Str) (c : Counts)
    (h : validCsvRow row = true) :
    ∃ t k, process_row P L (.csv row) c =
      .ok ⟨dincr c.tag_counts t, dincr c.port_protocol_counts k⟩ := by
  unfold validCsvRow at h
  rcases e5 : row[5]? with _ | f5 <;> rw [e5] at h
  · simp at h
  rcases e7 : row[7]? with _ | f7 <;> rw [e7] at h
  · simp at h
  simp only [Bool.and_eq_true, decide_eq_true_eq] at h
  obtain ⟨-, h5, h7⟩ := h
  refine ⟨get_tag_from_lookup L (pyStrip f5)
      (get_protcol_from_protocol_number (pyStrip f7) P),
    (pyStrip f5, pyLower (get_protcol_from_protocol_number (pyStrip f7) P)), ?_⟩
  unfold process_row extract_dstport_protocol
  simp only [rowFields, e5, e7]
  rw [if_neg (by simp [h5, h7])]
  simp [h5, h7]

theorem process_row_csv_invalid (P L : List (Str × Str)) (row : List Str) (c : Counts)
    (hl : row.length = 14) (h : validCsvRow row = false) :
    process_row P L (.csv row) c = .error .typeError := by
  have h5 : 5 < row.length := by omega
  have h7 : 7 < row.length := by omega
  unfold validCsvRow at h
  rw [List.getElem?_eq_getElem h5, List.getElem?_eq_getElem h7] at h
  simp only [hl, Bool.and_eq_true, decide_eq_true_eq] at h
  have hempty : pyStrip row[5] = [] ∨ pyStrip row[7] = [] := by
    by_cases a : pyStrip row[5] = []
    · exact Or.inl a
    · by_cases b : pyStrip row[7] = []
      · exact Or.inr b
      · simp [a, b] at h
  unfold process_row extract_dstport_protocol
  simp only [rowFields, List.getElem?_eq_getElem h5, List.getElem?_eq_getElem h7]
  rw [if_pos hempty]

theorem process_row_text_valid (P L : List (Str × Str)) (row : Str) (c : Counts)
    (h : (pySplit row).length = 14) :
    ∃ t k, process_row P L (.text row) c =
      .ok ⟨dincr c.tag_counts t, dincr c.port_protocol_counts k⟩ := by
  obtain ⟨dp, pn, he, hdp, hpn⟩ := extract_text_ok row h
  refine ⟨get_tag_from_lookup L dp (get_protcol_from_protocol_number pn P),
    (dp, pyLower (get_protcol_from_protocol_number pn P)), ?_⟩
  unfold process_row
  rw [he]
  simp [hdp, hpn]

theorem process_flow_log_csv_sums (P L : List (Str × Str)) (rows : List (List Str)) :
    ∀ c c', process_flow_log_csv P L rows c = .ok c' →
    sumValues c'.tag_counts
      = sumValues c.tag_counts + (rows.filter validCsvRow).length ∧
    sumValues c'.port_protocol_counts
      = sumValues c.port_protocol_counts + (rows.filter validCsvRow).length := by
  induction rows with
  | nil =>
    intro c c' h
    unfold process_flow_log_csv at h
    cases h
    simp
  | cons row rest ih =>
    intro c c' h
    by_cases hl : row.length = 14
    · by_cases hv : validCsvRow row = true
      · obtain ⟨t, k, he⟩ := process_row_csv_valid P L row c hv
        unfold process_flow_log_csv at h
        rw [if_pos hl, he] at h
        obtain ⟨h1, h2⟩ := ih _ _ h
        simp only [List.filter_cons, hv, if_pos, List.length_cons] at h1 h2 ⊢
        rw [h1, h2]
        simp only [sumValues_dincr]
        omega
      · have he := process_row_csv_invalid P L row c hl (by simpa using hv)
        unfold process_flow_log_csv at h
        rw [if_pos hl, he] at h
        cases h
    · have hv : validCsvRow row = false := by
        unfold validCsvRow
        simp [hl]
      unfold process_flow_log_csv at h
      rw [if_neg hl] at h
      obtain ⟨h1, h2⟩ := ih _ _ h
      simp only [List.filter_cons, hv, Bool.false_eq_true, if_false]
      exact ⟨h1, h2⟩

theorem process_flow_log_text_sums (P L : List (Str × Str)) (lines : List Str) :
    ∀ c c', process_flow_log_text P L lines c = .ok c' →
    sumValues c'.tag_counts
      = sumValues c.tag_counts + (lines.filter validTextLine).length ∧
    sumValues c'.port_protocol_counts
      = sumValues c.port_protocol_counts + (lines.filter validTextLine).length := by
  induction lines with
  | nil =>
    intro c c' h
    unfold process_flow_log_text at h
    cases h
    simp
  | cons line rest ih =>
    intro c c' h
    by_cases hs : pyStrip line = [] ∨ (pySplit (pyStrip line)).length ≠ 14
    · have hv : validTextLine line = false := by
        unfold validTextLine
        rcases hs with hs | hs <;> simp [hs]
      unfold process_flow_log_text at h
      rw [if_pos hs] at h
      obtain ⟨h1, h2⟩ := ih _ _ h
      simp only [List.filter_cons, hv, Bool.false_eq_true, if_false]
      exact ⟨h1, h2⟩
    · push_neg at hs
      obtain ⟨hne, hlen⟩ := hs
      have hv : validTextLine line = true := by
        unfold validTextLine
        simp [hne, hlen]
      obtain ⟨t, k, he⟩ := process_row_text_valid P L (pyStrip line) c hlen
      unfold process_flow_log_text at h
      rw [if_neg (by simp [hne, hlen]), he] at h
      obtain ⟨h1, h2⟩ := ih _ _ h
      simp only [List.filter_cons, hv, if_pos, List.length_cons] at h1 h2 ⊢
      rw [h1, h2]
      simp only [sumValues_dincr]
      omega

theorem toNat_ofNat_of_lt (m : Nat) (h : m < 55296) : (Char.ofNat m).toNat = m := by
  unfold Char.ofNat
  rw [dif_pos (Or.inl h)]
  rfl

theorem toLower_toLower (c : Char) : c.toLower.toLower = c.toLower := by
  unfold Char.toLower
  by_cases h : c.toNat ≥ 65 ∧ c.toNat ≤ 90
  · rw [if_pos h]
    rw [toNat_ofNat_of_lt (c.toNat + 32) (by omega)]
    rw [if_neg (by omega)]
  · rw [if_neg h, if_neg h]

theorem pyLower_pyLower (s : Str) : pyLower (pyLower s) = pyLower s := by
  unfold pyLower
  rw [List.map_map]
  apply List.map_congr_left
  intro c _
  exact toLower_toLower c

theorem dset_values_subset {κ α : Type} [BEq κ] :
    ∀ (d : List (κ × α)) (k : κ) (v : α),
      ∀ w ∈ (dset d k v).map (fun p => p.2), w = v ∨ w ∈ d.map (fun p => p.2)
  | [], k, v, w, hw => by
    simp [dset] at hw
    exact Or.inl hw
  | p :: rest, k, v, w, hw => by
    unfold dset at hw
    by_cases hp : (p.1 == k) = true
    · rw [if_pos hp] at hw
      rw [List.map_cons, List.mem_cons] at hw
      rcases hw with rfl | hw
      · exact Or.inl rfl
      · exact Or.inr (by rw [List.map_cons, List.mem_cons]; exact Or.inr hw)
    · rw [if_neg hp] at hw
      rw [List.map_cons, List.mem_cons] at hw
      rcases hw with rfl | hw
      · exact Or.inr (by rw [List.map_cons, List.mem_cons]; exact Or.inl rfl)
      · rcases dset_values_subset rest k v w hw with h | h
        · exact Or.inl h
        · exact Or.inr (by rw [List.map_cons, List.mem_cons]; exact Or.inr h)

theorem dget_some_mem {κ α : Type} [BEq κ] :
    ∀ (d : List (κ × α)) (k : κ) (v : α),
      dget d k = some v → v ∈ d.map (fun p => p.2)
  | [], k, v, h => by simp [dget] at h
  | p :: rest, k, v, h => by
    unfold dget at h
    by_cases hp : (p.1 == k) = true
    · rw [if_pos hp] at h
      cases h
      simp
    · rw [if_neg hp] at h
      simp only [List.map_cons, List.mem_cons]
      exact Or.inr (dget_some_mem rest k v h)

theorem load_lookup_table_values_aux (rows : List LookupRow) :
    ∀ (d : List (Str × Str)), (∀ v ∈ d.map (fun p => p.2), pyLower v = v) →
    ∀ v ∈ (rows.foldl
      (fun lookup row =>
        dset lookup (pyStrip row.dstport ++ ':' :: pyLower (pyStrip row.protocol))
          (pyLower (pyStrip row.tag))) d).map (fun p => p.2), pyLower v = v := by
  induction rows with
  | nil =>
    intro d hd
    simpa using hd
  | cons row rest ih =>
    intro d hd v hv
    rw [List.foldl_cons] at hv
    refine ih _ ?_ v hv
    intro w hw
    rcases dset_values_subset _ _ _ w hw with rfl | hw
    · exact pyLower_pyLower _
    · exact hd w hw

theorem load_lookup_table_values (rows : List LookupRow) (v : Str)
    (h : v ∈ (load_lookup_table rows).map (fun p => p.2)) : pyLower v = v :=
  load_lookup_table_values_aux rows [] (by simp) v h

theorem head?_dropWhile_not (p : Char → Bool) :
    ∀ (l : Str) (c : Char), (l.dropWhile p).head? = some c → p c = false := by
  intro l
  induction l with
  | nil => intro c h; simp at h
  | cons a t ih =>
    intro c h
    rw [List.dropWhile_cons] at h
    by_cases ha : p a = true
    · rw [if_pos ha] at h
      exact ih c h
    · rw [if_neg ha] at h
      cases h
      simpa using ha

theorem getLast?_dropWhile (p : Char → Bool) :
    ∀ (l : Str), l.dropWhile p ≠ [] → (l.dropWhile p).getLast? = l.getLast? := by
  intro l
  induction l with
  | nil => intro h; simp at h
  | cons a t ih =>
    intro h
    rw [List.dropWhile_cons] at h ⊢
    by_cases ha : p a = true
    · rw [if_pos ha] at h ⊢
      have ht : t ≠ [] := by
        intro he
        rw [he] at h
        simp at h
      rw [ih h]
      obtain ⟨d, ds, rfl⟩ := List.exists_cons_of_ne_nil ht
      rw [List.getLast?_cons_cons]
    · rw [if_neg ha]

theorem dropWhile_eq_self_of_head (p : Char → Bool) (m : Str)
    (hm : ∀ c, m.head? = some c → p c = false) : m.dropWhile p = m := by
  cases m with
  | nil => rfl
  | cons a t =>
    rw [List.dropWhile_cons, if_neg]
    simp [hm a rfl]

theorem pyStrip_idem (l : Str) : pyStrip (pyStrip l) = pyStrip l := by
  set a := l.dropWhile isWs with ha
  set b := a.reverse.dropWhile isWs with hb
  have hsl : pyStrip l = b.reverse := rfl
  have hBhead : ∀ c, b.head? = some c → isWs c = false := by
    intro c hB
    rw [hb] at hB
    exact head?_dropWhile_not isWs a.reverse c hB
  have hArev : ∀ c, b.reverse.head? = some c → isWs c = false := by
    intro c hB
    rw [List.head?_reverse] at hB
    have hbne : b ≠ [] := by
      intro he
      rw [he] at hB
      simp at hB
    rw [hb, getLast?_dropWhile isWs a.reverse (hb ▸ hbne), List.getLast?_reverse] at hB
    exact head?_dropWhile_not isWs l c (ha ▸ hB)
  rw [hsl]
  unfold pyStrip
  rw [dropWhile_eq_self_of_head isWs b.reverse hArev, List.reverse_reverse,
      dropWhile_eq_self_of_head isWs b hBhead]

theorem extract_output_trimmed (row : Row) (dp pn : Str)
    (h : extract_dstport_protocol row = .ok (some (dp, pn))) :
    pyStrip dp = dp ∧ pyStrip pn = pn := by
  unfold extract_dstport_protocol at h
  simp only [] at h
  rcases e5 : (rowFields row)[5]? with _ | f5 <;> rw [e5] at h
  · simp at h
  rcases e7 : (rowFields row)[7]? with _ | f7 <;> rw [e7] at h
  · simp at h
  simp only [] at h
  by_cases hc : pyStrip f5 = [] ∨ pyStrip f7 = []
  · rw [if_pos hc] at h
    simp at h
  · rw [if_neg hc] at h
    simp only [Except.ok.injEq, Option.some.injEq, Prod.mk.injEq] at h
    obtain ⟨h1, h2⟩ := h
    rw [← h1, ← h2]
    exact ⟨pyStrip_idem f5, pyStrip_idem f7⟩

/-- Claim C1 is violated by the code: a CSV row that passes the 14-field
check but has an empty destination-port field is not silently skipped;
`process_row` unpacks the extractor's `None` result and raises TypeError,
aborting the run. -/
theorem C1_failing_input_raises :
    (["a".toList, "b".toList, "c".toList, "d".toList, "e".toList, [],
      "g".toList, "6".toList, "i".toList, "j".toList, "k".toList,
      "l".toList, "m".toList, "n".toList] : List Str).length = 14 ∧
    process_flow_log_file [] []
      (.csvFile [["a".toList, "b".toList, "c".toList, "d".toList, "e".toList, [],
        "g".toList, "6".toList, "i".toList, "j".toList, "k".toList,
        "l".toList, "m".toList, "n".toList]]) = .error .typeError := by
  decide

/-- Claim C2: whenever processing a flow-log input terminates normally,
the sum of `tag_counts` values and the sum of `port_protocol_counts`
values both equal the number of valid records in the input. -/
theorem C2_sum_counts_eq_valid_records (protocols lookup_table : List (Str × Str))
    (input : FlowInput) (c : Counts)
    (h : process_flow_log_file protocols lookup_table input = .ok c) :
    sumValues c.tag_counts = countValid input ∧
    sumValues c.port_protocol_counts = countValid input := by
  cases input with
  | csvFile rows =>
    unfold process_flow_log_file at h
    obtain ⟨h1, h2⟩ := process_flow_log_csv_sums protocols lookup_table rows _ _ h
    unfold countValid
    constructor <;> simp_all [sumValues]
  | textFile lines =>
    unfold process_flow_log_file at h
    obtain ⟨h1, h2⟩ := process_flow_log_text_sums protocols lookup_table lines _ _ h
    unfold countValid
    constructor <;> simp_all [sumValues]

/-- Witness for C2 at a concrete one-line text input. -/
theorem C2_witness :
    sumValues (Counts.mk [("Untagged".toList, 1)]
        [(("80".toList, "unassigned".toList), 1)]).tag_counts
      = countValid (.textFile ["a b c d e 80 f 6 g h i j k l".toList]) ∧
    sumValues (Counts.mk [("Untagged".toList, 1)]
        [(("80".toList, "unassigned".toList), 1)]).port_protocol_counts
      = countValid (.textFile ["a b c d e 80 f 6 g h i j k l".toList]) :=
  C2_sum_counts_eq_valid_records [] []
    (.textFile ["a b c d e 80 f 6 g h i j k l".toList]) _ (by decide)

/-- Claim C3 as stated is false: `get_tag_from_lookup` does not trim the
port, so a port with surrounding whitespace resolves differently from the
trimmed port. -/
theorem C3_counterexample :
    get_tag_from_lookup (load_lookup_table [⟨"80".toList, "tcp".toList, "web".toList⟩])
        (" 80".toList) ("tcp".toList)
      ≠ get_tag_from_lookup (load_lookup_table [⟨"80".toList, "tcp".toList, "web".toList⟩])
        (pyStrip (" 80".toList)) ("tcp".toList) := by
  decide

/-- Claim C3 (amended): resolution lowercases the protocol name and joins
with a colon as at load time, but does not trim the port; resolving
(port, protocol) agrees with resolving (trimmed port, protocol) exactly
when the port is already trimmed, which holds for every port produced by
the extractor, since the extractor strips the field. -/
theorem C3_amended_trimmed_port (lookup_table : List (Str × Str)) :
    (∀ port protocol : Str, pyStrip port = port →
      get_tag_from_lookup lookup_table port protocol
        = get_tag_from_lookup lookup_table (pyStrip port) protocol) ∧
    (∀ (row : Row) (dp pn : Str),
      extract_dstport_protocol row = .ok (some (dp, pn)) →
      ∀ protocol : Str,
        get_tag_from_lookup lookup_table dp protocol
          = get_tag_from_lookup lookup_table (pyStrip dp) protocol) := by
  constructor
  · intro port protocol hp
    rw [hp]
  · intro row dp pn he protocol
    rw [(extract_output_trimmed row dp pn he).1]

/-- Witness for C3 (amended) at a concrete trimmed port. -/
theorem C3_witness :
    pyStrip ("80".toList) = "80".toList ∧
    get_tag_from_lookup [] ("80".toList) ("tcp".toList)
      = get_tag_from_lookup [] (pyStrip ("80".toList)) ("tcp".toList) :=
  ⟨by decide, (C3_amended_trimmed_port []).1 ("80".toList) ("tcp".toList) (by decide)⟩

/-- Claim C4 as stated is false: the default tag returned for an unmatched
pair is "Untagged", which is not the lowercase string "untagged". -/
theorem C4_counterexample :
    get_tag_from_lookup [] ("80".toList) ("tcp".toList) = "Untagged".toList ∧
    pyLower (get_tag_from_lookup [] ("80".toList) ("tcp".toList))
      ≠ get_tag_from_lookup [] ("80".toList) ("tcp".toList) := by
  decide

/-- Claim C4 (amended): tags matched from the table are stored lowercase at
load time, and for every (port, protocol-name) pair with no match in the
table the returned default tag is the capitalized string "Untagged". -/
theorem C4_amended_lowercase_store :
    (∀ (rows : List LookupRow) (v : Str),
      v ∈ (load_lookup_table rows).map (fun p => p.2) → pyLower v = v) ∧
    (∀ (lookup_table : List (Str × Str)) (port protocol : Str),
      dget lookup_table (tagKey port protocol) = none →
      get_tag_from_lookup lookup_table port protocol = "Untagged".toList) := by
  constructor
  · exact fun rows v h => load_lookup_table_values rows v h
  · intro lookup_table port protocol h
    unfold get_tag_from_lookup
    rw [h]

/-- Witness for C4 (amended): a stored tag is lowercase even when written
capitalized in the source row, and a miss returns "Untagged". -/
theorem C4_witness :
    pyLower ("web".toList) = "web".toList ∧
    get_tag_from_lookup [] ("80".toList) ("tcp".toList) = "Untagged".toList :=
  ⟨C4_amended_lowercase_store.1 [⟨"80".toList, "TCP".toList, "Web".toList⟩]
      ("web".toList) (by decide),
   C4_amended_lowercase_store.2 [] ("80".toList) ("tcp".toList) (by decide)⟩

/-- Claim C5: a key absent from the table and a key present with an empty
(falsy) value both resolve to "Untagged"; a key present with a non-empty
value resolves to that stored tag. -/
theorem C5_untagged_fallback (lookup_table : List (Str × Str)) (port protocol : Str) :
    (dget lookup_table (tagKey port protocol) = none →
      get_tag_from_lookup lookup_table port protocol = "Untagged".toList) ∧
    (dget lookup_table (tagKey port protocol) = some [] →
      get_tag_from_lookup lookup_table port protocol = "Untagged".toList) ∧
    (∀ t, dget lookup_table (tagKey port protocol) = some t → t ≠ [] →
      get_tag_from_lookup lookup_table port protocol = t) := by
  refine ⟨?_, ?_, ?_⟩
  · intro h
    unfold get_tag_from_lookup
    rw [h]
  · intro h
    unfold get_tag_from_lookup
    rw [h]
    simp
  · intro t h ht
    unfold get_tag_from_lookup
    rw [h]
    simp [ht]

/-- Witness for C5: a missing key, a key with empty tag, and a key with a
real tag, on a concrete table. -/
theorem C5_witness :
    get_tag_from_lookup [("80:tcp".toList, "web".toList), ("81:tcp".toList, [])]
        ("99".toList) ("tcp".toList) = "Untagged".toList ∧
    get_tag_from_lookup [("80:tcp".toList, "web".toList), ("81:tcp".toList, [])]
        ("81".toList) ("tcp".toList) = "Untagged".toList ∧
    get_tag_from_lookup [("80:tcp".toList, "web".toList), ("81:tcp".toList, [])]
        ("80".toList) ("tcp".toList) = "web".toList :=
  ⟨(C5_untagged_fallback [("80:tcp".toList, "web".toList), ("81:tcp".toList, [])]
      ("99".toList) ("tcp".toList)).1 (by decide),
   (C5_untagged_fallback [("80:tcp".toList, "web".toList), ("81:tcp".toList, [])]
      ("81".toList) ("tcp".toList)).2.1 (by decide),
   (C5_untagged_fallback [("80:tcp".toList, "web".toList), ("81:tcp".toList, [])]
      ("80".toList) ("tcp".toList)).2.2 ("web".toList) (by decide) (by decide)⟩

/-- Claim C6: protocol resolution returns the registered keyword when the
exact decimal string is a key, and the literal "Unassigned" otherwise; the
key is used as an opaque string, with no numeric normalization. -/
theorem C6_protocol_resolution_exact_key (protocols : List (Str × Str)) (pn : Str) :
    (∀ kw, dget protocols pn = some kw →
      get_protcol_from_protocol_number pn protocols = kw) ∧
    (dget protocols pn = none →
      get_protcol_from_protocol_number pn protocols = "Unassigned".toList) := by
  constructor
  · intro kw h
    unfold get_protcol_from_protocol_number
    rw [h]
    rfl
  · intro h
    unfold get_protcol_from_protocol_number
    rw [h]
    rfl

/-- Witness for C6: on a registry loaded with decimal "6", the string "6"
resolves to its keyword and the distinct string "06" falls back to
"Unassigned". -/
theorem C6_witness :
    get_protcol_from_protocol_number ("6".toList)
        (load_protocols_from_csv [⟨"6".toList, "TCP".toList⟩]) = "TCP".toList ∧
    get_protcol_from_protocol_number ("06".toList)
        (load_protocols_from_csv [⟨"6".toList, "TCP".toList⟩]) = "Unassigned".toList :=
  ⟨(C6_protocol_resolution_exact_key
      (load_protocols_from_csv [⟨"6".toList, "TCP".toList⟩]) ("6".toList)).1
      ("TCP".toList) (by decide),
   (C6_protocol_resolution_exact_key
      (load_protocols_from_csv [⟨"6".toList, "TCP".toList⟩]) ("06".toList)).2
      (by decide)⟩

/-- Claim C7: a CSV row whose field count differs from 14, and a text line
that is blank or does not split into 14 tokens, are skipped: processing the
remaining input from the same counters, with no error raised. -/
theorem C7_field_count_skip (protocols lookup_table : List (Str × Str)) :
    (∀ (row : List Str) (rest : List (List Str)) (c : Counts), row.length ≠ 14 →
      process_flow_log_csv protocols lookup_table (row :: rest) c
        = process_flow_log_csv protocols lookup_table rest c) ∧
    (∀ (line : Str) (rest : List Str) (c : Counts),
      pyStrip line = [] ∨ (pySplit (pyStrip line)).length ≠ 14 →
      process_flow_log_text protocols lookup_table (line :: rest) c
        = process_flow_log_text protocols lookup_table rest c) := by
  constructor
  · intro row rest c h
    conv_lhs => unfold process_flow_log_csv
    rw [if_neg h]
  · intro line rest c h
    conv_lhs => unfold process_flow_log_text
    rw [if_pos h]

/-- Witness for C7: a 13-field CSV row and a 13-token text line are skipped
on concrete inputs. -/
theorem C7_witness :
    process_flow_log_csv [] [] [["a".toList]] (Counts.mk [] [])
      = process_flow_log_csv [] [] [] (Counts.mk [] []) ∧
    process_flow_log_text [] [] ["a b c".toList] (Counts.mk [] [])
      = process_flow_log_text [] [] [] (Counts.mk [] []) :=
  ⟨(C7_field_count_skip [] []).1 ["a".toList] [] (Counts.mk [] []) (by decide),
   (C7_field_count_skip [] []).2 ("a b c".toList) [] (Counts.mk [] []) (by decide)⟩

/-- Claim C8: tag resolution is case-insensitive in the protocol name:
protocol names with the same lowercasing resolve to the same tag. -/
theorem C8_case_insensitive_protocol (lookup_table : List (Str × Str))
    (port p1 p2 : Str) (h : pyLower p1 = pyLower p2) :
    get_tag_from_lookup lookup_table port p1
      = get_tag_from_lookup lookup_table port p2 := by
  unfold get_tag_from_lookup tagKey
  rw [h]

/-- Witness for C8: lookup("80","TCP") equals lookup("80","tcp") on a
loaded table. -/
theorem C8_witness :
    pyLower ("TCP".toList) = pyLower ("tcp".toList) ∧
    get_tag_from_lookup (load_lookup_table [⟨"80".toList, "tcp".toList, "web".toList⟩])
        ("80".toList) ("TCP".toList)
      = get_tag_from_lookup (load_lookup_table [⟨"80".toList, "tcp".toList, "web".toList⟩])
        ("80".toList) ("tcp".toList) :=
  ⟨by decide,
   C8_case_insensitive_protocol
      (load_lookup_table [⟨"80".toList, "tcp".toList, "web".toList⟩])
      ("80".toList) ("TCP".toList) ("tcp".toList) (by decide)⟩

/-- Claim C9: when the record has exactly 14 fields, the accesses at
indices 5 and 7 are in bounds, so the extractor's IndexError branch is
unreachable. -/
theorem C9_index_in_bounds (row : Row) (h : (rowFields row).length = 14) :
    extract_dstport_protocol row ≠ .error .indexError := by
  have h5 : 5 < (rowFields row).length := by omega
  have h7 : 7 < (rowFields row).length := by omega
  unfold extract_dstport_protocol
  simp only []
  rw [List.getElem?_eq_getElem h5, List.getElem?_eq_getElem h7]
  simp only []
  by_cases hc : pyStrip (rowFields row)[5] = [] ∨ pyStrip (rowFields row)[7] = []
  · rw [if_pos hc]
    simp
  · rw [if_neg hc]
    simp

/-- Witness for C9 at a concrete 14-field row. -/
theorem C9_witness :
    (rowFields (Row.csv [[], [], [], [], [], [], [], [], [], [], [], [], [], []])).length
        = 14 ∧
    extract_dstport_protocol (Row.csv [[], [], [], [], [], [], [], [], [], [], [], [], [], []])
      ≠ .error .indexError :=
  ⟨by decide,
   C9_index_in_bounds (Row.csv [[], [], [], [], [], [], [], [], [], [], [], [], [], []])
      (by decide)⟩

/-- Claim C10: in text mode, any line whose whitespace split has exactly 14
tokens extracts successfully: both extracted fields are non-empty, so the
invalid branch is unreachable in text mode. -/
theorem C10_text_extraction_succeeds (row : Str)
    (h : (pySplit row).length = 14) :
    ∃ dp pn, extract_dstport_protocol (.text row) = .ok (some (dp, pn)) ∧
      dp ≠ [] ∧ pn ≠ [] :=
  extract_text_ok row h

/-- Witness for C10 at a concrete 14-token line. -/
theorem C10_witness :
    (pySplit ("a b c d e 80 f 6 g h i j k l".toList)).length = 14 ∧
    ∃ dp pn,
      extract_dstport_protocol (.text ("a b c d e 80 f 6 g h i j k l".toList))
        = .ok (some (dp, pn)) ∧ dp ≠ [] ∧ pn ≠ [] :=
  ⟨by decide,
   C10_text_extraction_succeeds ("a b c d e 80 f 6 g h i j k l".toList) (by decide)⟩
